import Mathlib

/-!
# Verification of `kit`'s `Repository` core (src/kit/repository.py)

Shallow embedding of the `Repository` class and, where the repository's
collaborator modules (`RepoMapper`, `CodeSearcher`, `ContextExtractor`,
`VectorSearcher`) are not part of the given sources, models of their
behaviour taken from the specification.

Python dictionaries with a fixed insertion order are embedded as ordered
association lists; exceptions are embedded as `Except` values; the mutable
`Repository` object is embedded as a state record threaded explicitly.
-/

set_option autoImplicit false

namespace Kit

/-- A symbol dictionary as produced by the symbol indexer.  The fields are the
ones `repository.py` reads: `sym["name"]`, `sym["type"]`, `sym.get("line")`,
`sym.get("context")`, plus the start/end line range the data model gives every
symbol. -/
structure Symbol where
  name : String
  type : String
  startLine : Nat
  endLine : Nat
  line : Option Nat
  context : Option String
  deriving Repr, DecidableEq

/-- The repo map's `"symbols"` mapping: an insertion-ordered mapping from file
path to the ordered list of symbols of that file. -/
abbrev SymbolMap := List (String × List Symbol)

/-- A text-search hit: file path, 1-based line number, the matching line. -/
structure SearchHit where
  file : String
  line : Nat
  line_content : String
  deriving Repr, DecidableEq

/-- The snapshot: an ordered listing of in-scope file paths together with each
file's content, split into lines. -/
abbrev Snapshot := List (String × List String)

/-- A vector stored for a chunk.  The floating-point components of the real
code are embedded as rationals. -/
abbrev Vec := List ℚ

/-- An embedding record of the vector index: chunk identity plus its vector. -/
structure EmbeddingRecord where
  file : String
  startLine : Nat
  endLine : Nat
  content : String
  vector : Vec
  deriving Repr, DecidableEq

/-- Modelled from the spec: the `VectorSearcher` object (its module is not in
the given sources).  It stores the injected embedding function, the ordered
collection of embedding records, and the backend/persistence configuration it
was constructed with.  The back-reference to the owning repository is not
modelled. -/
structure VectorSearcher where
  embed : String → Vec
  records : List EmbeddingRecord
  backend : Option String
  persist_dir : Option String

/-- The error conditions surfaced by the operations under verification.
`configurationError` embeds the `ValueError` raised for a missing embedding
function; `fileNotFound` embeds `FileNotFoundError` / the `NotFound`
condition. -/
inductive KitError where
  | fileNotFound (path : String)
  | configurationError (msg : String)
  deriving Repr, DecidableEq

/-- The `Repository` state: the immutable snapshot, the per-language parser the
mapper selects (returning `none` for files it does not recognize or fails to
parse, which are skipped), the mapper's lazily built repo-map cache, and the
`vector_searcher` attribute (`None` until first constructed). -/
structure Repository where
  snapshot : Snapshot
  parse : String → List String → Option (List Symbol)
  repoMapCache : Option SymbolMap
  vector_searcher : Option VectorSearcher

/-- Look a file path up in the snapshot (first entry with that path). -/
def lookupFile (snap : Snapshot) (p : String) : Option (List String) :=
  (snap.find? (fun e => e.1 == p)).map Prod.snd

/-- Modelled from the spec: `RepoMapper.scan_repo` (module not in the given
sources) parses every recognized file of the snapshot; unrecognized files and
parse failures are skipped and contribute no symbols. -/
def scanRepo (r : Repository) : SymbolMap :=
  r.snapshot.filterMap (fun e => (r.parse e.1 e.2).map (fun syms => (e.1, syms)))

/-- Modelled from the spec: `RepoMapper.get_repo_map` (module not in the given
sources) builds the map once — scanning the whole snapshot — and memoizes it;
subsequent calls return the cached value.  Only the `"symbols"` mapping of the
returned map is modelled, since that is all `repository.py` reads. -/
def getRepoMap (r : Repository) : SymbolMap × Repository :=
  match r.repoMapCache with
  | some m => (m, r)
  | none =>
    let m := scanRepo r
    (m, { r with repoMapCache := some m })

/-- Modelled from the spec: `RepoMapper.extract_symbols` (module not in the
given sources) parses the single named file on demand, always fresh, touching
no cache. -/
def mapperExtractSymbols (r : Repository) (p : String) : List Symbol :=
  match lookupFile r.snapshot p with
  | some ls => (r.parse p ls).getD []
  | none => []

/-- Flatten a symbol map's per-file symbol lists in mapping order, as the
Python loop `for file, syms in map.items(): out.extend(syms)` does. -/
def joinSymbols (m : SymbolMap) : List Symbol :=
  (m.map Prod.snd).flatten

/-- `Repository.extract_symbols`: with a file path, delegates to the mapper's
single-file extraction; with `None`, obtains the full repo map (scanning if
needed) and concatenates every file's symbol list in mapping order. -/
def Repository.extract_symbols (r : Repository) (file_path : Option String) :
    List Symbol × Repository :=
  match file_path with
  | some p => (mapperExtractSymbols r p, r)
  | none =>
    let res := getRepoMap r
    (joinSymbols res.1, res.2)

/-! ## Text search (`CodeSearcher`, modelled from the spec) -/

/-- Split a glob pattern at its `*` wildcards into literal segments. -/
def splitStar : List Char → List (List Char)
  | [] => [[]]
  | c :: cs =>
    if c = '*' then [] :: splitStar cs
    else
      match splitStar cs with
      | [] => [[c]]
      | s :: ss => (c :: s) :: ss

/-- Drop everything up to and including the first occurrence of the literal
segment `seg`; `none` when `seg` does not occur. -/
def dropAfterSeg (seg : List Char) : List Char → Option (List Char)
  | [] => if seg.isEmpty then some [] else none
  | c :: cs =>
    if seg.isPrefixOf (c :: cs) then some ((c :: cs).drop seg.length)
    else dropAfterSeg seg cs

/-- Match the remaining literal segments of a glob in order; the last segment
must end the path. -/
def matchSegs : List (List Char) → List Char → Bool
  | [], _ => true
  | [s], cs => s.isSuffixOf cs
  | s :: s₂ :: ss, cs =>
    match dropAfterSeg s cs with
    | none => false
    | some cs₂ => matchSegs (s₂ :: ss) cs₂

/-- Modelled from the spec: glob matching of file patterns (`*` wildcard) as
used by the text search engine's `filePattern` filter. -/
def globMatch (pattern path : String) : Bool :=
  match splitStar pattern.toList with
  | [] => path.toList.isEmpty
  | s :: ss =>
    s.isPrefixOf path.toList && matchSegs ss (path.toList.drop s.length)

/-- Substring containment on character lists, embedding Python's
`query in line`. -/
def containsSub (q : List Char) : List Char → Bool
  | [] => q.isEmpty
  | c :: cs => q.isPrefixOf (c :: cs) || containsSub q cs

/-- Modelled from the spec: `CodeSearcher.search_text` (module not in the given
sources) scans every in-scope file whose path matches the glob `filePattern`,
matching the query as a plain substring per line; hits are yielded in snapshot
file order, then ascending 1-based line number. -/
def searchTextIn (snap : Snapshot) (query : String) (file_pattern : String) :
    List SearchHit :=
  snap.flatMap (fun e =>
    if globMatch file_pattern e.1 then
      (e.2.enum.filterMap (fun il =>
        if containsSub query.toList il.2.toList then
          some { file := e.1, line := il.1 + 1, line_content := il.2 }
        else none))
    else [])

/-- `Repository.search_text`: delegates to the searcher over the repository's
snapshot. -/
def Repository.search_text (r : Repository) (query : String)
    (file_pattern : String) : List SearchHit :=
  searchTextIn r.snapshot query file_pattern

/-! ## File content and chunking -/

/-- `Repository.get_file_content`: raises `FileNotFoundError` when the path
does not name an existing file; otherwise returns the file's content (as its
list of lines).  The repository state is not touched. -/
def Repository.get_file_content (r : Repository) (file_path : String) :
    Except KitError (List String) :=
  match lookupFile r.snapshot file_path with
  | none => Except.error (KitError.fileNotFound file_path)
  | some ls => Except.ok ls

/-- One pass of line chunking: `acc` holds the current (reversed) window. -/
def chunkAux (maxLines : Nat) (acc : List String) :
    List String → List (List String)
  | [] => if acc.isEmpty then [] else [acc.reverse]
  | l :: ls =>
    if maxLines ≤ acc.length + 1 then (l :: acc).reverse :: chunkAux maxLines [] ls
    else chunkAux maxLines (l :: acc) ls

/-- Modelled from the spec: the chunker's line windowing — contiguous,
non-overlapping windows of at most `maxLines` lines, only the final window
possibly shorter. -/
def chunkLines (maxLines : Nat) (lines : List String) : List (List String) :=
  chunkAux maxLines [] lines

/-- `Repository.chunk_file_by_lines`: fails with a `NotFound` condition when
the file is absent from the snapshot (`ContextExtractor` module modelled from
the spec); otherwise windows the file's lines. -/
def Repository.chunk_file_by_lines (r : Repository) (file_path : String)
    (max_lines : Nat) : Except KitError (List (List String)) :=
  match lookupFile r.snapshot file_path with
  | none => Except.error (KitError.fileNotFound file_path)
  | some ls => Except.ok (chunkLines max_lines ls)

/-- A chunk of a file: its location and content lines. -/
structure Chunk where
  file : String
  startLine : Nat
  endLine : Nat
  content : List String
  deriving Repr, DecidableEq

/-- The symbols of `syms` that enclose the (0-based) line `line`, smallest
line-span first. -/
def enclosingSymbols (syms : List Symbol) (line : Nat) : List Symbol :=
  (syms.filter (fun s => s.startLine ≤ line && line ≤ s.endLine)).mergeSort
    (fun s t => s.endLine - s.startLine ≤ t.endLine - t.startLine)

/-- Modelled from the spec: `ContextExtractor.extract_context_around_line`
(module not in the given sources).  Returns `none` when `line` is out of the
file's bounds; otherwise the smallest enclosing symbol's chunk when one exists,
and a fixed window of up to 10 lines centered on `line` as a fallback. -/
def Repository.extract_context_around_line (r : Repository) (file_path : String)
    (line : Nat) : Option Chunk :=
  match lookupFile r.snapshot file_path with
  | none => none
  | some ls =>
    if ls.length ≤ line then none
    else
      match enclosingSymbols ((r.parse file_path ls).getD []) line with
      | s :: _ =>
        some { file := file_path, startLine := s.startLine, endLine := s.endLine,
               content := (ls.drop s.startLine).take (s.endLine + 1 - s.startLine) }
      | [] =>
        let lo := line - 5
        some { file := file_path, startLine := lo,
               endLine := min (lo + 9) (ls.length - 1),
               content := (ls.drop lo).take 10 }

/-! ## Vector search (`VectorSearcher`, modelled from the spec) -/

/-- Dot product of two vectors (componentwise, trailing components of the
longer vector ignored). -/
def dotVec : Vec → Vec → ℚ
  | x :: xs, y :: ys => x * y + dotVec xs ys
  | _, _ => 0

/-- Squared Euclidean norm. -/
def normSq (v : Vec) : ℚ := dotVec v v

/-- Exact comparison `cos(q,v) ≥ cos(q,w)` of cosine similarities, decided
over the rationals by sign analysis and squaring (the common factor `‖q‖`
cancels). -/
def cosGe (q v w : Vec) : Bool :=
  let a := dotVec q v
  let b := dotVec q w
  if 0 ≤ a then
    if 0 ≤ b then b ^ 2 * normSq v ≤ a ^ 2 * normSq w else true
  else
    if 0 ≤ b then false else a ^ 2 * normSq w ≤ b ^ 2 * normSq v

/-- Stable insertion into a list sorted by descending cosine similarity to
`q`: an element moves past `y` only when `y` scores strictly higher, so ties
keep first-indexed order. -/
def insertByCos (q : Vec) (x : EmbeddingRecord) :
    List EmbeddingRecord → List EmbeddingRecord
  | [] => [x]
  | y :: ys =>
    if cosGe q y.vector x.vector && !cosGe q x.vector y.vector then
      y :: insertByCos q x ys
    else x :: y :: ys

/-- Stable sort of the records by descending cosine similarity to `q`. -/
def sortByCos (q : Vec) : List EmbeddingRecord → List EmbeddingRecord
  | [] => []
  | x :: xs => insertByCos q x (sortByCos q xs)

/-- Modelled from the spec: `VectorSearcher.search` (module not in the given
sources) embeds the query with the injected function, scores every record by
cosine similarity, and returns the `topK` highest-scoring records, ties broken
by first-indexed order; `topK ≤ 0` yields an empty result, not an error.
`topK` is an integer, as in Python. -/
def VectorSearcher.search (vs : VectorSearcher) (query : String) (top_k : ℤ) :
    List EmbeddingRecord :=
  (sortByCos (vs.embed query) vs.records).take top_k.toNat

/-- The message of the `ValueError` raised by `get_vector_searcher`. -/
def embedFnMsg : String :=
  "embed_fn must be provided on first use (e.g. OpenAI/HF embedding function)"

/-- `Repository.get_vector_searcher`: when `vector_searcher` is `None`, a
missing `embed_fn` raises a `ValueError` (state untouched), otherwise a
`VectorSearcher` is constructed and stored; when it is set, the stored
instance is returned and every argument is ignored. -/
def Repository.get_vector_searcher (r : Repository)
    (embed_fn : Option (String → Vec)) (backend : Option String)
    (persist_dir : Option String) :
    Except KitError VectorSearcher × Repository :=
  match r.vector_searcher with
  | some vs => (Except.ok vs, r)
  | none =>
    match embed_fn with
    | none => (Except.error (KitError.configurationError embedFnMsg), r)
    | some f =>
      let vs : VectorSearcher :=
        { embed := f, records := [], backend := backend, persist_dir := persist_dir }
      (Except.ok vs, { r with vector_searcher := some vs })

/-- `Repository.search_semantic`: obtains the vector searcher (passing
`embed_fn` through, backend and persistence directory defaulted to `None`) and
delegates the query to it. -/
def Repository.search_semantic (r : Repository) (query : String) (top_k : ℤ)
    (embed_fn : Option (String → Vec)) :
    Except KitError (List EmbeddingRecord) × Repository :=
  match r.get_vector_searcher embed_fn none none with
  | (Except.error e, r₂) => (Except.error e, r₂)
  | (Except.ok vs, r₂) => (Except.ok (vs.search query top_k), r₂)

/-! ## Index and serialization -/

/-- A file-tree entry. -/
structure FileTreeEntry where
  path : String
  is_dir : Bool
  size : Nat
  deriving Repr, DecidableEq

/-- Modelled from the spec: `RepoMapper.get_file_tree` (module not in the given
sources) — deterministic, re-derived from the snapshot's live file listing,
not from the cached repo map. -/
def Repository.get_file_tree (r : Repository) : List FileTreeEntry :=
  r.snapshot.map (fun e => { path := e.1, is_dir := false, size := e.2.length })

/-- The dictionary `Repository.index` returns: the file tree under both the
legacy key `"file_tree"` and the preferred key `"files"`, plus the repo map's
symbol mapping. -/
structure RepoIndex where
  file_tree : List FileTreeEntry
  files : List FileTreeEntry
  symbols : SymbolMap

/-- `Repository.index`: builds the file tree, then the full repo map, and
returns both under the keys described at `RepoIndex`. -/
def Repository.index (r : Repository) : RepoIndex × Repository :=
  let tree := r.get_file_tree
  let res := getRepoMap r
  ({ file_tree := tree, files := tree, symbols := res.1 }, res.2)

/-- The list of symbols `Repository.write_symbols` serializes: the `symbols`
argument when given, otherwise `index()["symbols"]` values flattened in
mapping order (the JSON file write itself is not modelled). -/
def Repository.write_symbols_payload (r : Repository)
    (symbols : Option (List Symbol)) : List Symbol × Repository :=
  match symbols with
  | some s => (s, r)
  | none =>
    let res := r.index
    (joinSymbols res.1.symbols, res.2)

/-! ## Symbol usages -/

/-- A JSON-like value appearing in a usage dictionary. -/
inductive JValue where
  | s (v : String)
  | n (v : Nat)
  | null
  deriving Repr, DecidableEq

/-- A Python dictionary with insertion-ordered string keys. -/
abbrev Dict := List (String × JValue)

/-- The keys of a dictionary, in insertion order. -/
def dictKeys (d : Dict) : List String := d.map Prod.fst

/-- Embed an optional line number as a dictionary value. -/
def lineValue : Option Nat → JValue
  | some k => JValue.n k
  | none => JValue.null

/-- Embed an optional context string as a dictionary value. -/
def ctxValue : Option String → JValue
  | some c => JValue.s c
  | none => JValue.null

/-- The usage dictionary built for a repo-map symbol: keys `file`, `type`,
`name`, `line`, `context`. -/
def symUsageDict (file : String) (s : Symbol) : Dict :=
  [("file", JValue.s file), ("type", JValue.s s.type), ("name", JValue.s s.name),
   ("line", lineValue s.line), ("context", ctxValue s.context)]

/-- The usage dictionary built for a text-search hit: keys `file`, `line`,
`context`, where the context falls back along Python's truthiness chain
`hit.get("line_content") or hit.get("line") or ""`. -/
def hitUsageDict (h : SearchHit) : Dict :=
  [("file", JValue.s h.file), ("line", JValue.n h.line),
   ("context",
     if h.line_content ≠ "" then JValue.s h.line_content
     else if h.line ≠ 0 then JValue.n h.line else JValue.s "")]

/-- `Repository.find_symbol_usages`: collects, from the full repo map, a
usage dictionary for every symbol matching the name (and the type when one is
given), then appends a usage dictionary for every text-search hit of the name
across all files. -/
def Repository.find_symbol_usages (r : Repository) (symbol_name : String)
    (symbol_type : Option String) : List Dict × Repository :=
  let res := getRepoMap r
  let symUsages : List Dict :=
    res.1.flatMap (fun e =>
      (e.2.filter (fun s =>
        s.name == symbol_name &&
          (symbol_type.isNone || symbol_type == some s.type))).map
        (symUsageDict e.1))
  let hits := searchTextIn res.2.snapshot symbol_name "*"
  (symUsages ++ hits.map hitUsageDict, res.2)

/-! ## Concrete instances used by witnesses and counterexamples -/

/-- The sizes of the windows `chunkAux` produces, as a function of the current
accumulator size and the number of remaining lines only. -/
def chunkSizes (m : Nat) : Nat → Nat → List Nat
  | a, 0 => if a = 0 then [] else [a]
  | a, n + 1 => if m ≤ a + 1 then (a + 1) :: chunkSizes m 0 n else chunkSizes m (a + 1) n

/-- A trivial parser recognizing every file and finding no symbols. -/
def parse0 : String → List String → Option (List Symbol) := fun _ _ => some []

/-- A one-file repository in its initial state (nothing cached, no vector
searcher). -/
def wRepo : Repository :=
  { snapshot := [("a.py", ["foo"])], parse := parse0,
    repoMapCache := none, vector_searcher := none }

/-- A trivial embedding function. -/
def wEmbed : String → Vec := fun _ => []

/-- A concrete vector searcher. -/
def wVS : VectorSearcher :=
  { embed := wEmbed, records := [], backend := none, persist_dir := none }

/-- `wRepo` after its vector searcher has been constructed and stored. -/
def wRepoVS : Repository := { wRepo with vector_searcher := some wVS }

/-- A repository holding one 120-line file. -/
def wRepo6 : Repository :=
  { snapshot := [("big.txt", List.replicate 120 "x")], parse := parse0,
    repoMapCache := none, vector_searcher := none }

/-! ## Helper lemmas on line chunking -/

theorem chunkAux_flatten (m : Nat) (ls : List String) :
    ∀ acc : List String, (chunkAux m acc ls).flatten = acc.reverse ++ ls := by
  induction ls with
  | nil =>
    intro acc
    cases acc <;> simp [chunkAux]
  | cons l ls ih =>
    intro acc
    by_cases h : m ≤ acc.length + 1
    · simp [chunkAux, h, ih]
    · simp [chunkAux, h, ih]

theorem chunkAux_length_le (m : Nat) (ls : List String) :
    ∀ acc, acc.length < m → ∀ c ∈ chunkAux m acc ls, c.length ≤ m := by
  induction ls with
  | nil =>
    intro acc ha c hc
    cases acc with
    | nil => simp [chunkAux] at hc
    | cons a as =>
      simp [chunkAux] at hc
      subst hc
      simp at ha ⊢
      omega
  | cons l ls ih =>
    intro acc ha c hc
    by_cases h : m ≤ acc.length + 1
    · simp [chunkAux, h] at hc
      rcases hc with hc | hc
      · subst hc; simp; omega
      · exact ih [] (by simp; omega) c hc
    · simp [chunkAux, h] at hc
      exact ih (l :: acc) (by simp; omega) c hc

theorem chunkAux_dropLast_length (m : Nat) (ls : List String) :
    ∀ acc, acc.length < m → ∀ c ∈ (chunkAux m acc ls).dropLast, c.length = m := by
  induction ls with
  | nil =>
    intro acc ha c hc
    cases acc <;> simp [chunkAux] at hc
  | cons l ls ih =>
    intro acc ha c hc
    by_cases h : m ≤ acc.length + 1
    · rw [show chunkAux m acc (l :: ls) = (l :: acc).reverse :: chunkAux m [] ls from
        by simp [chunkAux, h]] at hc
      by_cases hrest : chunkAux m [] ls = []
      · rw [hrest] at hc; simp at hc
      · rw [List.dropLast_cons_of_ne_nil hrest] at hc
        rcases List.mem_cons.mp hc with hc | hc
        · subst hc; simp; omega
        · exact ih [] (by simp; omega) c hc
    · simp [chunkAux, h] at hc
      exact ih (l :: acc) (by simp; omega) c hc

theorem chunkAux_sizes (m : Nat) (ls : List String) :
    ∀ acc, (chunkAux m acc ls).map List.length = chunkSizes m acc.length ls.length := by
  induction ls with
  | nil =>
    intro acc
    cases acc <;> simp [chunkAux, chunkSizes]
  | cons l ls ih =>
    intro acc
    by_cases h : m ≤ acc.length + 1
    · simp [chunkAux, chunkSizes, h, ih]
    · simp [chunkAux, chunkSizes, h, ih]

/-! ## The claims -/

/-- Claim C1: on a repository whose vector searcher is not yet constructed,
`get_vector_searcher` (and `search_semantic`, which calls it) with no
embedding function raises the configuration error and leaves
`vector_searcher` unset (the returned state is the unchanged repository);
with an embedding function supplied, a `VectorSearcher` is constructed and
stored. -/
theorem get_vector_searcher_first_use (r : Repository)
    (h : r.vector_searcher = none) :
    (∀ b pd, r.get_vector_searcher none b pd =
        (Except.error (KitError.configurationError embedFnMsg), r))
    ∧ (∀ f b pd, r.get_vector_searcher (some f) b pd =
        (Except.ok ⟨f, [], b, pd⟩,
         { r with vector_searcher := some ⟨f, [], b, pd⟩ }))
    ∧ (∀ q k, r.search_semantic q k none =
        (Except.error (KitError.configurationError embedFnMsg), r)) := by
  refine ⟨fun b pd => ?_, fun f b pd => ?_, fun q k => ?_⟩ <;>
    simp [Repository.get_vector_searcher, Repository.search_semantic, h]

/-- Witness for claim C1 at the concrete repository `wRepo`. -/
theorem get_vector_searcher_first_use_witness :
    (∀ b pd, wRepo.get_vector_searcher none b pd =
        (Except.error (KitError.configurationError embedFnMsg), wRepo))
    ∧ (∀ f b pd, wRepo.get_vector_searcher (some f) b pd =
        (Except.ok ⟨f, [], b, pd⟩,
         { wRepo with vector_searcher := some ⟨f, [], b, pd⟩ }))
    ∧ (∀ q k, wRepo.search_semantic q k none =
        (Except.error (KitError.configurationError embedFnMsg), wRepo)) :=
  get_vector_searcher_first_use wRepo rfl

/-- Claim C2: `extract_symbols` with no file path returns exactly the
per-file symbol lists of the (possibly just built) repo map concatenated in
mapping order, and a missing cache triggers the full scan; with a file path it
delegates to the single-file extraction of the mapper, leaves the state
untouched, and its result depends only on that one file and the parser. -/
theorem extract_symbols_spec (r : Repository) :
    ((r.extract_symbols none).1 = joinSymbols (getRepoMap r).1
      ∧ (r.extract_symbols none).2 = (getRepoMap r).2)
    ∧ (r.repoMapCache = none → (getRepoMap r).1 = scanRepo r)
    ∧ (∀ p, r.extract_symbols (some p) = (mapperExtractSymbols r p, r))
    ∧ (∀ (p : String) (r₂ : Repository), r₂.parse = r.parse →
        lookupFile r₂.snapshot p = lookupFile r.snapshot p →
        (r₂.extract_symbols (some p)).1 = (r.extract_symbols (some p)).1) := by
  refine ⟨⟨rfl, rfl⟩, fun h => ?_, fun p => rfl, fun p r₂ hp hf => ?_⟩
  · simp [getRepoMap, h]
  · simp [Repository.extract_symbols, mapperExtractSymbols, hp, hf]

/-- Witness for claim C2 at the concrete repository `wRepo` (whose repo map
is not yet built). -/
theorem extract_symbols_spec_witness :
    ((wRepo.extract_symbols none).1 = joinSymbols (getRepoMap wRepo).1
      ∧ (wRepo.extract_symbols none).2 = (getRepoMap wRepo).2)
    ∧ (wRepo.repoMapCache = none → (getRepoMap wRepo).1 = scanRepo wRepo)
    ∧ (∀ p, wRepo.extract_symbols (some p) = (mapperExtractSymbols wRepo p, wRepo))
    ∧ (∀ (p : String) (r₂ : Repository), r₂.parse = wRepo.parse →
        lookupFile r₂.snapshot p = lookupFile wRepo.snapshot p →
        (r₂.extract_symbols (some p)).1 = (wRepo.extract_symbols (some p)).1) :=
  extract_symbols_spec wRepo

/-- Counterexample for claim C3: in the one-file repository `wRepo`, the
usage list for the name `foo` holds a text-search-derived entry that carries
no `type` and no `name` field, so not every entry carries all five stable
field names. -/
theorem find_symbol_usages_keys_cex :
    ¬ (∀ d ∈ (wRepo.find_symbol_usages "foo" none).1,
        "file" ∈ dictKeys d ∧ "type" ∈ dictKeys d ∧ "name" ∈ dictKeys d ∧
        "line" ∈ dictKeys d ∧ "context" ∈ dictKeys d) := by
  decide

/-- Claim C3 (amended): every entry returned by `find_symbol_usages` carries
either the five field names `file`, `type`, `name`, `line`, `context` (the
entries derived from the symbol map) or only `file`, `line`, `context` (the
entries derived from text-search hits). -/
theorem find_symbol_usages_keys (r : Repository) (nm : String)
    (ty : Option String) :
    ∀ d ∈ (r.find_symbol_usages nm ty).1,
      dictKeys d = ["file", "type", "name", "line", "context"] ∨
      dictKeys d = ["file", "line", "context"] := by
  intro d hd
  unfold Repository.find_symbol_usages at hd
  rcases List.mem_append.mp hd with hd | hd
  · left
    obtain ⟨e, _, hd⟩ := List.mem_flatMap.mp hd
    obtain ⟨s, _, hd⟩ := List.mem_map.mp hd
    rw [← hd]
    rfl
  · right
    obtain ⟨h, _, hd⟩ := List.mem_map.mp hd
    rw [← hd]
    rfl

/-- Witness for the amended claim C3 at the text-search-derived entry of
`wRepo`. -/
theorem find_symbol_usages_keys_witness :
    dictKeys [("file", JValue.s "a.py"), ("line", JValue.n 1),
        ("context", JValue.s "foo")] =
        ["file", "type", "name", "line", "context"] ∨
    dictKeys [("file", JValue.s "a.py"), ("line", JValue.n 1),
        ("context", JValue.s "foo")] = ["file", "line", "context"] :=
  find_symbol_usages_keys wRepo "foo" none
    [("file", JValue.s "a.py"), ("line", JValue.n 1), ("context", JValue.s "foo")]
    (by decide)

/-- Claim C4: an operation addressed at a single named file that is absent
from the snapshot raises to the caller: `get_file_content` with the
file-not-found error and `chunk_file_by_lines` with the same `NotFound`
condition.  Neither touches any cached state: both are functions of the
repository state that return no updated state. -/
theorem missing_file_raises (r : Repository) (p : String)
    (h : lookupFile r.snapshot p = none) :
    r.get_file_content p = Except.error (KitError.fileNotFound p)
    ∧ ∀ m, r.chunk_file_by_lines p m = Except.error (KitError.fileNotFound p) := by
  refine ⟨?_, fun m => ?_⟩ <;>
    simp [Repository.get_file_content, Repository.chunk_file_by_lines, h]

/-- Witness for claim C4 at the concrete repository `wRepo` and a path not in
its snapshot. -/
theorem missing_file_raises_witness :
    wRepo.get_file_content "missing.py" =
        Except.error (KitError.fileNotFound "missing.py")
    ∧ ∀ m, wRepo.chunk_file_by_lines "missing.py" m =
        Except.error (KitError.fileNotFound "missing.py") :=
  missing_file_raises wRepo "missing.py" (by decide)

/-- Claim C5: semantic search with `top_k ≤ 0` returns an empty result list
and no error, whenever the vector searcher is constructible (already stored,
or an embedding function is supplied). -/
theorem search_semantic_topk_nonpos (r : Repository) (q : String) (k : ℤ)
    (e : Option (String → Vec)) (hk : k ≤ 0)
    (hc : r.vector_searcher.isSome = true ∨ e.isSome = true) :
    (r.search_semantic q k e).1 = Except.ok [] := by
  cases hvs : r.vector_searcher with
  | some vs =>
    simp [Repository.search_semantic, Repository.get_vector_searcher, hvs,
      VectorSearcher.search, Int.toNat_of_nonpos hk]
  | none =>
    cases e with
    | none => simp [hvs] at hc
    | some f =>
      simp [Repository.search_semantic, Repository.get_vector_searcher, hvs,
        VectorSearcher.search, Int.toNat_of_nonpos hk]

/-- Witness for claim C5: `top_k = -1` on `wRepo` with an embedding function
supplied. -/
theorem search_semantic_topk_nonpos_witness :
    (wRepo.search_semantic "q" (-1) (some wEmbed)).1 = Except.ok [] :=
  search_semantic_topk_nonpos wRepo "q" (-1) (some wEmbed) (by decide) (Or.inr rfl)

/-- Claim C6: for an existing file, `chunk_file_by_lines` windows the file
into contiguous, non-overlapping chunks (their concatenation is the file),
each of at most `maxLines` lines, with every non-final chunk of exactly
`maxLines` lines; a 120-line file with `maxLines = 50` yields exactly the
chunk lengths 50, 50, 20. -/
theorem chunk_file_by_lines_partitions (r : Repository) (p : String)
    (lines : List String) (maxLines : Nat)
    (hf : lookupFile r.snapshot p = some lines) (hm : 0 < maxLines) :
    r.chunk_file_by_lines p maxLines = Except.ok (chunkLines maxLines lines)
    ∧ (chunkLines maxLines lines).flatten = lines
    ∧ (∀ c ∈ chunkLines maxLines lines, c.length ≤ maxLines)
    ∧ (∀ c ∈ (chunkLines maxLines lines).dropLast, c.length = maxLines)
    ∧ (maxLines = 50 → lines.length = 120 →
        (chunkLines maxLines lines).map List.length = [50, 50, 20]) := by
  refine ⟨?_, ?_, ?_, ?_, ?_⟩
  · simp [Repository.chunk_file_by_lines, hf]
  · simpa using chunkAux_flatten maxLines lines []
  · exact chunkAux_length_le maxLines lines [] (by simpa using hm)
  · exact chunkAux_dropLast_length maxLines lines [] (by simpa using hm)
  · intro h50 h120
    rw [chunkLines, chunkAux_sizes]
    subst h50
    rw [show ([] : List String).length = 0 from rfl, h120]
    decide

/-- Witness for claim C6 at the 120-line file of `wRepo6` with
`maxLines = 50`. -/
theorem chunk_file_by_lines_partitions_witness :
    wRepo6.chunk_file_by_lines "big.txt" 50 =
        Except.ok (chunkLines 50 (List.replicate 120 "x"))
    ∧ (chunkLines 50 (List.replicate 120 "x")).flatten = List.replicate 120 "x"
    ∧ (∀ c ∈ chunkLines 50 (List.replicate 120 "x"), c.length ≤ 50)
    ∧ (∀ c ∈ (chunkLines 50 (List.replicate 120 "x")).dropLast, c.length = 50)
    ∧ (50 = 50 → (List.replicate 120 "x").length = 120 →
        (chunkLines 50 (List.replicate 120 "x")).map List.length = [50, 50, 20]) :=
  chunk_file_by_lines_partitions wRepo6 "big.txt" (List.replicate 120 "x") 50
    (by decide) (by decide)

/-- Claim C7: for an existing file, `extract_context_around_line` at a line
number exceeding the line count of the file returns `none` rather than an
error. -/
theorem extract_context_out_of_bounds (r : Repository) (p : String)
    (lines : List String) (line : Nat)
    (hf : lookupFile r.snapshot p = some lines) (hl : lines.length < line) :
    r.extract_context_around_line p line = none := by
  simp only [Repository.extract_context_around_line, hf]
  rw [if_pos (Nat.le_of_lt hl)]

/-- Witness for claim C7: line 5 of the one-line file of `wRepo`. -/
theorem extract_context_out_of_bounds_witness :
    wRepo.extract_context_around_line "a.py" 5 = none :=
  extract_context_out_of_bounds wRepo "a.py" ["foo"] 5 (by decide) (by decide)

/-- Claim C8: `search_text` is deterministic as a two-run property — any two
repository states over the same unmodified snapshot (regardless of their
caches) return equal hit lists in identical order for every query and file
pattern. -/
theorem search_text_two_runs (r₁ r₂ : Repository) (q pat : String)
    (h : r₁.snapshot = r₂.snapshot) :
    r₁.search_text q pat = r₂.search_text q pat := by
  unfold Repository.search_text
  rw [h]

/-- Witness for claim C8: two states over the snapshot of `wRepo` that differ
in their vector searcher. -/
theorem search_text_two_runs_witness :
    wRepo.search_text "foo" "*" = wRepoVS.search_text "foo" "*" :=
  search_text_two_runs wRepo wRepoVS "foo" "*" rfl

/-- Claim C9: once `vector_searcher` is set, every call to
`get_vector_searcher` returns that same stored instance, ignores all
arguments, and leaves the state unchanged; `search_semantic` likewise queries
the stored instance and never replaces it. -/
theorem get_vector_searcher_cached (r : Repository) (vs : VectorSearcher)
    (h : r.vector_searcher = some vs) :
    (∀ e b pd, r.get_vector_searcher e b pd = (Except.ok vs, r))
    ∧ (∀ q k e, r.search_semantic q k e = (Except.ok (vs.search q k), r)) := by
  refine ⟨fun e b pd => ?_, fun q k e => ?_⟩ <;>
    simp [Repository.get_vector_searcher, Repository.search_semantic, h]

/-- Witness for claim C9 at the concrete repository `wRepoVS`, whose searcher
is stored. -/
theorem get_vector_searcher_cached_witness :
    (∀ e b pd, wRepoVS.get_vector_searcher e b pd = (Except.ok wVS, wRepoVS))
    ∧ (∀ q k e, wRepoVS.search_semantic q k e =
        (Except.ok (wVS.search q k), wRepoVS)) :=
  get_vector_searcher_cached wRepoVS wVS rfl

/-- Claim C10: `write_symbols` with `symbols = None` serializes exactly the
symbol list `extract_symbols` with no file path returns (and leaves the state
in the same condition), and the index maps the keys `file_tree` and `files`
to the identical file-tree value. -/
theorem write_symbols_default_matches_extract (r : Repository) :
    (r.write_symbols_payload none).1 = (r.extract_symbols none).1
    ∧ (r.write_symbols_payload none).2 = (r.extract_symbols none).2
    ∧ (r.index).1.file_tree = (r.index).1.files :=
  ⟨rfl, rfl, rfl⟩

end Kit
